import Mathlib

/-!
Shallow embedding of the wallet-balance and collection-metrics core of the
fast-rpc-analytics repository (src/fetch_wallet_balances.py, src/config.py,
src/analyze_fast_protocol.py, src/streamlit_app.py), together with theorems
settling the spec claims about it.

Modelling conventions:
* Python floats are modelled as rationals (ℚ); ints as ℕ/ℤ.
* Network I/O is modelled by passing the (already JSON-decoded) response of
  each HTTP/RPC call as an explicit argument of type `Except PyExc _`;
  `Except.error` is a transport exception or a `raise_for_status` failure.
* Python dictionaries with possibly-missing keys are modelled as structures
  with `Option` fields; `d.get(k, default)` becomes `Option.getD`.
* A `try/except` block is an `Except` computation whose `.error` outcome is
  mapped to the Python handler's return value; a Lean function returning a
  plain (non-`Except`) result therefore models a Python function that never
  raises.
-/

/-- Exceptions that the embedded code can raise internally (all of them are
caught by the enclosing `try/except Exception` blocks of the source). -/
inductive PyExc where
  | transport
  | valueError
  | attributeError
deriving DecidableEq, Repr

/-- Matching of a pattern against the leading characters of a list
(used to model Python's substring operator). -/
def leadMatch : List Char → List Char → Bool
  | [], _ => true
  | _ :: _, [] => false
  | c :: cs, d :: ds => c == d && leadMatch cs ds

/-- Substring occurrence on character lists: the pattern occurs at some
position of the haystack. -/
def hasSubList (pat : List Char) : List Char → Bool
  | [] => leadMatch pat []
  | d :: ds => leadMatch pat (d :: ds) || hasSubList pat ds

/-- Python's `pat in hay` substring test on strings. -/
def strContainsSub (hay pat : String) : Bool :=
  hasSubList pat.toList hay.toList

/-- ASCII lower-casing of one character (the strings this code lowercases
are ASCII token symbols, names and hex addresses). -/
def charLower (c : Char) : Char :=
  if 'A' ≤ c ∧ c ≤ 'Z' then Char.ofNat (c.toNat + 32) else c

/-- Python's `s.lower()` on the ASCII strings this code handles. -/
def pyLower (s : String) : String :=
  ⟨s.data.map charLower⟩

/-- Value of one hexadecimal digit, `none` for a non-hex character. -/
def hexDigitVal (c : Char) : Option ℕ :=
  if '0' ≤ c ∧ c ≤ '9' then some (c.toNat - '0'.toNat)
  else if 'a' ≤ c ∧ c ≤ 'f' then some (c.toNat - 'a'.toNat + 10)
  else if 'A' ≤ c ∧ c ≤ 'F' then some (c.toNat - 'A'.toNat + 10)
  else none

/-- Accumulating hex parser over a character list; `none` on any bad digit. -/
def parseHexDigits : ℕ → List Char → Option ℕ
  | acc, [] => some acc
  | acc, c :: cs =>
    match hexDigitVal c with
    | some v => parseHexDigits (acc * 16 + v) cs
    | none => none

/-- Python's `int(s, 16)` on the nonnegative hex strings this code receives:
an optional `0x`/`0X` prefix followed by at least one hex digit; any other
shape raises `ValueError` (modelled as `none`). -/
def int_hex (s : String) : Option ℕ :=
  let cs := s.toList
  let digits :=
    match cs with
    | '0' :: 'x' :: rest => rest
    | '0' :: 'X' :: rest => rest
    | rest => rest
  match digits with
  | [] => none
  | _ => parseHexDigits 0 digits

/- ===== src/config.py ===== -/

/-- `config.HL_VERIFIED_TOKENS` (src/config.py lines 25-33): verified
Hyperliquid contract addresses, as (address, symbol, kind) with kind
`hype` (HYPE-pegged) or `stable` (stablecoin). -/
def config_HL_VERIFIED_TOKENS : List (String × String × String) :=
  [("0x5555555555555555555555555555555555555555", "WHYPE", "hype"),
   ("0xffaa4a3d97fe9107cef8a3f48c069f577ff76cc1", "stHYPE", "hype"),
   ("0x2831775cb5e64b1d892853893858a261e898fbeb", "wHYPE", "hype"),
   ("0xb88339cb7199b77e23db6e890353e22632ba630f", "USDC", "stable"),
   ("0x5d3a1ff2b6bab83b63cd9ad0787074081a52ef34", "USDe", "stable")]

/-- The attribute lookup `config.HL_HYPE_TOKENS` performed at
src/fetch_wallet_balances.py line 208.  `config.py` defines no attribute of
that name (it defines `HL_VERIFIED_TOKENS` instead, and no other module
assigns `config.HL_HYPE_TOKENS`), so in Python this lookup raises
`AttributeError`; the embedding therefore evaluates to that exception. -/
def config_HL_HYPE_TOKENS : Except PyExc (List String) :=
  .error .attributeError

/- ===== src/fetch_wallet_balances.py : is_spam_token ===== -/

/-- A decoded token-balance JSON object as consumed by `is_spam_token` and
`get_wallet_balance`.  A field is `none` when the key is absent from the
dictionary.  `value_usd` can additionally be present with value `None`
(hence `Option (Option ℚ)`).  The source converts `amount` and `value_usd`
through `float(...)`; numeric payloads are modelled directly as ℚ. -/
structure BalanceEntry where
  symbol : Option String
  name : Option String
  amount : Option ℚ
  value_usd : Option (Option ℚ)
deriving DecidableEq, Repr

/-- `float(balance_entry.get('value_usd', 0) or 0)`: a missing key or a
`None` value collapses to 0 (and `v or 0` is the identity on numbers other
than 0, where it is 0 = v anyway). -/
def entry_value_usd (b : BalanceEntry) : ℚ :=
  match b.value_usd with
  | some (some v) => v
  | _ => 0

/-- The whitelist of legitimate token symbols (lines 35-41). -/
def legitimate_tokens : List String :=
  ["eth", "weth", "usdt", "usdc", "dai", "wbtc", "link", "uni", "aave",
   "mkr", "snx", "comp", "crv", "bal", "yfi", "sushi", "matic", "ftm",
   "avax", "bnb", "sol", "ada", "dot", "atom", "near", "algo", "xlm",
   "steth", "reth", "cbeth", "frax", "lusd", "gusd", "tusd", "busd", "ezeth",
   "paxg", "blur", "ape", "pepe", "shib"]

/-- The spam substring patterns (lines 48-52). -/
def spam_patterns : List String :=
  ["visit", "claim", "http", ".com", ".net", ".org", ".io",
   "airdrop", "reward", "bonus", "free", "gift", "voucher", "access",
   "ethg", "aicc", "zepe"]

/-- `is_spam_token` (lines 24-92).  The `amount > 1e15` branch and the
`value_usd > 100000` branch of the source both end in `pass` and are dead
code; they are kept as comments below. -/
def is_spam_token (balance_entry : BalanceEntry) : Bool :=
  let symbol := pyLower (balance_entry.symbol.getD "")
  let name := pyLower (balance_entry.name.getD "")
  let _amount := balance_entry.amount.getD 0
  let value_usd := entry_value_usd balance_entry
  if symbol ∈ legitimate_tokens then
    false
  else if spam_patterns.any (fun pattern =>
      strContainsSub symbol pattern || strContainsSub name pattern) then
    true
  else if symbol ∈ ["ethg", "aicc", "zepe"] then
    true
  -- `if amount > 1e15: ... pass` — no effect
  else if value_usd > 10000 ∧ symbol ∉ legitimate_tokens then
    true
  -- `if value_usd > 100000 and len(symbol) < 5 and ...: pass` — no effect
  else
    false

/- ===== src/fetch_wallet_balances.py : get_wallet_balance ===== -/

/-- Result dictionary of the Ethereum fetcher.  The failure dictionaries of
the source carry no `token_count` key; every caller reads that key through
`.get('token_count', 0)`, so the failure result models it as 0. -/
structure EthResult where
  address : String
  balance_usd : ℚ
  token_count : ℕ
  success : Bool
deriving DecidableEq, Repr

/-- `get_wallet_balance(address, api_key)` (lines 94-130).  The HTTP
response is passed explicitly as `Except.error` (transport exception) or
`Except.ok (status_code, decoded balances list)`, where the decoded list is
`response.json().get('balances', [])`. -/
def get_wallet_balance (address : String)
    (response : Except PyExc (ℕ × List BalanceEntry)) : EthResult :=
  match response with
  | .error _ => ⟨address, 0, 0, false⟩
  | .ok (status_code, balances) =>
    if status_code = 200 then
      let legitimate_balances := balances.filter (fun b => ¬ is_spam_token b)
      let total_usd := (legitimate_balances.map entry_value_usd).sum
      ⟨address, total_usd, legitimate_balances.length, true⟩
    else
      ⟨address, 0, 0, false⟩

/- ===== src/fetch_wallet_balances.py : get_hype_price ===== -/

/-- The module-global `_hype_price_cache` (line 135): `price` is `None`
initially (`none`) and holds the last fetched positive price afterwards. -/
structure PriceCache where
  price : Option ℚ
  timestamp : ℚ
deriving DecidableEq, Repr

/-- `_hype_price_cache.get('price', 0) or 0` — `None` and 0 collapse to 0. -/
def cache_price_or_zero (cache : PriceCache) : ℚ :=
  match cache.price with
  | none => 0
  | some p => p

/-- `get_hype_price()` (lines 137-157).  Explicit state passing: the
function takes the current cache, the clock value `now`, and the outcome of
the CoinGecko fetch (`Except.ok price` is a 2xx response decoded to
`resp.json().get('hyperliquid', {}).get('usd', 0)`; `Except.error` is any
exception in the try block).  It returns the price handed to the caller and
the new cache state.  Returning a plain pair models the source's
never-raises behaviour: every exception is caught at line 156. -/
def get_hype_price (cache : PriceCache) (now : ℚ)
    (fetch : Except PyExc ℚ) : ℚ × PriceCache :=
  if cache_price_or_zero cache ≠ 0 ∧ now - cache.timestamp < 300 then
    (cache_price_or_zero cache, cache)
  else
    match fetch with
    | .ok price =>
      if price > 0 then (price, ⟨some price, now⟩)
      else (price, cache)
    | .error _ => (cache_price_or_zero cache, cache)

/- ===== src/fetch_wallet_balances.py : get_hl_wallet_balance ===== -/

/-- One element of `resp2.json().get('result', {}).get('tokenBalances', [])`
as consumed by the token loop; the source reads its keys through
`tb.get('contractAddress', '')` and `tb.get('tokenBalance', '0x0')`, so the
fields model the values after those defaults. -/
structure TokenBalanceRPC where
  contractAddress : String
  tokenBalance : String
deriving DecidableEq, Repr

/-- Result dictionary of the Hyperliquid fetcher.  The failure dictionaries
of the source carry no `balance_hype` or `token_count` key; every caller
reads them through `.get(_, 0)`, so the failure result models them as 0. -/
structure HLResult where
  address : String
  balance_usd : ℚ
  balance_hype : ℚ
  token_count : ℕ
  success : Bool
deriving DecidableEq, Repr

/-- Body of the `for tb in token_balances` loop (lines 195-209), one token:
state is `(total_usd, token_count)`.  A positive balance reaches the
membership test `contract in config.HL_HYPE_TOKENS or contract in
set-comprehension over config.HL_HYPE_TOKENS`, whose attribute lookup
raises (`config_HL_HYPE_TOKENS`), aborting the whole fetch. -/
def process_hl_token (hype_price : ℚ) (st : ℚ × ℕ) (tb : TokenBalanceRPC) :
    Except PyExc (ℚ × ℕ) :=
  let contract := pyLower tb.contractAddress
  let raw_balance := tb.tokenBalance
  if raw_balance = "0x0" ∨ raw_balance = "0x" then
    .ok st
  else
    match int_hex raw_balance with
    | none => .error .valueError
    | some n =>
      let balance : ℚ := (n : ℚ) / 10 ^ 18
      if balance ≤ 0 then
        .ok st
      else do
        let token_count := st.2 + 1
        let hype_tokens ← config_HL_HYPE_TOKENS
        if contract ∈ hype_tokens ∨ contract ∈ hype_tokens.map pyLower then
          .ok (st.1 + balance * hype_price, token_count)
        else
          .ok (st.1, token_count)

/-- The `try` block of `get_hl_wallet_balance` (lines 171-218): native
balance RPC, then the ERC20 token loop.  `nativeResp` carries
`resp.json().get('result', '0x0')` for the `eth_getBalance` call;
`tokenResp` carries the decoded `tokenBalances` list.  Returns
`(total_usd, native_balance, token_count)`. -/
def hl_fetch_body (hype_price : ℚ)
    (nativeResp : Except PyExc String)
    (tokenResp : Except PyExc (List TokenBalanceRPC)) :
    Except PyExc (ℚ × ℚ × ℕ) := do
  let result ← nativeResp
  match int_hex result with
  | none => .error .valueError
  | some n =>
    let native_balance : ℚ := (n : ℚ) / 10 ^ 18
    let native_usd := native_balance * hype_price
    let st0 : ℚ × ℕ := if native_balance > 0 then (native_usd, 1) else (0, 0)
    let token_balances ← tokenResp
    let st ← token_balances.foldlM (process_hl_token hype_price) st0
    pure (st.1, native_balance, st.2)

/-- `get_hl_wallet_balance(address, hype_price)` (lines 160-220).  The
`hype_price is None` path (which would call `get_hype_price()`) is modelled
by the caller passing the oracle's result; a falsy (zero) price short-cuts
to failure without any RPC call; any exception in the body yields the
failure dictionary. -/
def get_hl_wallet_balance (address : String) (hype_price : ℚ)
    (nativeResp : Except PyExc String)
    (tokenResp : Except PyExc (List TokenBalanceRPC)) : HLResult :=
  if hype_price = 0 then
    ⟨address, 0, 0, 0, false⟩
  else
    match hl_fetch_body hype_price nativeResp tokenResp with
    | .ok (total_usd, native_balance, token_count) =>
      ⟨address, total_usd, native_balance, token_count, true⟩
    | .error _ => ⟨address, 0, 0, 0, false⟩

/- ===== src/fetch_wallet_balances.py : get_wallet_balance_multi_chain ===== -/

/-- Merged result dictionary (lines 233-241). -/
structure MergedResult where
  address : String
  balance_usd : ℚ
  eth_balance_usd : ℚ
  hl_balance_usd : ℚ
  hl_balance_hype : ℚ
  token_count : ℕ
  success : Bool
deriving DecidableEq, Repr

/-- `get_wallet_balance_multi_chain(address, dune_api_key)` (lines
223-241).  `hype_price` is the value returned by the `get_hype_price()`
call at line 225; the two fetchers' network responses are passed
explicitly as for the fetchers themselves. -/
def get_wallet_balance_multi_chain (address : String)
    (ethResp : Except PyExc (ℕ × List BalanceEntry))
    (hype_price : ℚ)
    (nativeResp : Except PyExc String)
    (tokenResp : Except PyExc (List TokenBalanceRPC)) : MergedResult :=
  let eth_result := get_wallet_balance address ethResp
  let hl_result := get_hl_wallet_balance address hype_price nativeResp tokenResp
  let eth_usd := if eth_result.success then eth_result.balance_usd else 0
  let hl_usd := if hl_result.success then hl_result.balance_usd else 0
  { address := address
    balance_usd := eth_usd + hl_usd
    eth_balance_usd := eth_usd
    hl_balance_usd := hl_usd
    hl_balance_hype := hl_result.balance_hype
    token_count := eth_result.token_count + hl_result.token_count
    success := eth_result.success || hl_result.success }

/- ===== Scan aggregation ===== -/

/-- The totals block of `refresh_data` in src/streamlit_app.py (lines
206-210): `(total_value_usd, avg_value_usd, wallets_successful)` of the
stored `balance_data`. -/
structure BalanceSummary where
  total_value_usd : ℚ
  avg_value_usd : ℚ
  wallets_successful : ℕ
deriving DecidableEq, Repr

/-- `refresh_data` aggregation (src/streamlit_app.py lines 206-210):
`total_value = sum(r.get('balance_usd', 0) for r in results)`,
`successful = sum(1 for r in results if r.get('success'))`,
`avg_value = total_value / successful if successful else 0`. -/
def refresh_data_summary (results : List MergedResult) : BalanceSummary :=
  let total_value := (results.map (·.balance_usd)).sum
  let successful := (results.filter (·.success)).length
  ⟨total_value,
   if successful ≠ 0 then total_value / successful else 0,
   successful⟩

/-- `fetch_all_wallet_balances` stats block (src/fetch_wallet_balances.py
lines 302-304): `total_value = sum(r['balance_usd'] for r in results)`,
`avg_value = total_value / len(results) if results else 0`.  Returns
`(total_value, avg_value)`. -/
def fetch_all_stats (results : List EthResult) : ℚ × ℚ :=
  let total_value := (results.map (·.balance_usd)).sum
  (total_value, if results ≠ [] then total_value / results.length else 0)

/- ===== src/analyze_fast_protocol.py : calculate_metrics ===== -/

/-- One raw collection record as far as `calculate_metrics` reads it: the
`entity` name column and the integer `unique_wallets` column. -/
structure RawCollection where
  entity : String
  unique_wallets : ℕ
deriving DecidableEq, Repr

/-- One output row of `calculate_metrics`: the input columns plus the
derived `percentage`, `rank` and `category` columns. -/
structure CollectionRow where
  entity : String
  unique_wallets : ℕ
  percentage : ℚ
  rank : ℕ
  category : String
deriving DecidableEq, Repr

/-- The descending order used by `df.sort_values('unique_wallets',
ascending=False)`: row `a` may precede row `b` when `a`'s wallet count is
at least `b`'s. -/
def uwDesc (a b : RawCollection) : Prop :=
  b.unique_wallets ≤ a.unique_wallets

instance : DecidableRel uwDesc := fun a b =>
  inferInstanceAs (Decidable (b.unique_wallets ≤ a.unique_wallets))

/-- The documented contract of `df.sort_values('unique_wallets',
ascending=False)` (line 37) with the default `kind='quicksort'`: the result
is a permutation of the frame whose wallet counts are weakly decreasing.
pandas documents only the `mergesort`/`stable` kinds as stable, so the
relative order of tied rows is implementation-defined and nothing more can
be assumed of it; the embedding therefore takes the sorted frame as an
explicit input constrained by this contract (the same way it passes
network responses as inputs) instead of fixing a tie order the library
does not promise. -/
def IsSortValuesDesc (df sorted : List RawCollection) : Prop :=
  List.Perm sorted df ∧ List.Sorted uwDesc sorted

instance (df sorted : List RawCollection) : Decidable (IsSortValuesDesc df sorted) :=
  inferInstanceAs (Decidable (List.Perm sorted df ∧ List.Sorted uwDesc sorted))

/-- Rounding half-to-even on ℚ, the rounding mode of numpy/pandas
`Series.round`. -/
def roundHalfEven (q : ℚ) : ℤ :=
  if q - Int.floor q < 1 / 2 then Int.floor q
  else if q - Int.floor q > 1 / 2 then Int.floor q + 1
  else if Even (Int.floor q) then Int.floor q else Int.floor q + 1

/-- `Series.round(2)` on one cell: round to two decimal places. -/
def round2 (q : ℚ) : ℚ :=
  (roundHalfEven (q * 100) : ℚ) / 100

/-- The NFT keyword list (lines 50-51). -/
def nft_collections : List String :=
  ["pudgy", "moonbirds", "azuki", "bayc", "mayc", "doodles",
   "cryptopunks", "meebits", "beanz", "bakc", "otherdeed", "yuga"]

/-- The DeFi keyword list (lines 52-53). -/
def defi_protocols : List String :=
  ["hyperliquid", "aave", "uniswap", "compound", "curve",
   "balancer", "sushiswap", "dydx", "lido", "rocketpool"]

/-- `categorize(entity)` (lines 55-62): case-insensitive substring match,
NFT keywords first, then DeFi, else Other. -/
def categorize (entity : String) : String :=
  let entity_lower := pyLower entity
  if nft_collections.any (fun nft => strContainsSub entity_lower nft) then
    "NFT"
  else if defi_protocols.any (fun defi => strContainsSub entity_lower defi) then
    "DeFi"
  else
    "Other"

/-- The `percentage` column value for a row with `uw` unique wallets when
the column total is `total` (lines 40-44): guarded division, times 100,
rounded to 2 decimals; 0.0 for every row when the total is 0. -/
def percentage_of (total : ℕ) (uw : ℕ) : ℚ :=
  if 0 < total then round2 ((uw : ℚ) / (total : ℚ) * 100) else 0

/-- Building the output rows of the sorted frame from position `i` on,
with rank `i`, `i+1`, ...: models `df['rank'] = range(1, len(df) + 1)`
together with the `percentage` and `category` column assignments. -/
def attach_ranks (total : ℕ) : ℕ → List RawCollection → List CollectionRow
  | _, [] => []
  | i, r :: rest =>
    ⟨r.entity, r.unique_wallets, percentage_of total r.unique_wallets,
     i, categorize r.entity⟩ :: attach_ranks total (i + 1) rest

/-- `calculate_metrics(df)` (lines 31-66).  An empty frame is returned
unchanged (`if df is None or df.empty: return df`); otherwise the
`percentage`, `rank` and `category` columns are assigned over the frame
sorted descending by `unique_wallets`.  `sorted` is the outcome of the
`df.sort_values` call, passed as an explicit input because its tie order
is implementation-defined (see `IsSortValuesDesc`); theorems constrain it
by that contract. -/
def calculate_metrics (df sorted : List RawCollection) : List CollectionRow :=
  if df = [] then []
  else
    let total_wallets := (sorted.map (·.unique_wallets)).sum
    attach_ranks total_wallets 1 sorted

/- ===== Claim-statement helpers ===== -/

/-- The default-substituted token balance record named by the spec: `''`
for a missing `symbol` or `name`, 0 for a missing `amount`, 0 for a
missing or `None` `value_usd`. -/
def entry_with_defaults (b : BalanceEntry) : BalanceEntry :=
  ⟨some (b.symbol.getD ""), some (b.name.getD ""),
   some (b.amount.getD 0), some (some (entry_value_usd b))⟩

/- ===== Theorems ===== -/

/-- C4: for every address and every combination of external responses, the
merged result's balance_usd is exactly the sum of the two per-chain USD
fields it reports (the code computes all three from the same gated
`eth_usd`/`hl_usd` values). -/
theorem merged_balance_eq_sum_of_chain_components
    (address : String) (ethResp : Except PyExc (ℕ × List BalanceEntry))
    (hype_price : ℚ) (nativeResp : Except PyExc String)
    (tokenResp : Except PyExc (List TokenBalanceRPC)) :
    (get_wallet_balance_multi_chain address ethResp hype_price nativeResp tokenResp).balance_usd
      = (get_wallet_balance_multi_chain address ethResp hype_price nativeResp tokenResp).eth_balance_usd
        + (get_wallet_balance_multi_chain address ethResp hype_price nativeResp tokenResp).hl_balance_usd :=
  rfl

/-- C5: the merged result is flagged successful iff at least one of the two
chain fetches succeeded, and unsuccessful iff both failed (logical OR of
the per-chain success flags). -/
theorem merged_success_iff_either_chain_success
    (address : String) (ethResp : Except PyExc (ℕ × List BalanceEntry))
    (hype_price : ℚ) (nativeResp : Except PyExc String)
    (tokenResp : Except PyExc (List TokenBalanceRPC)) :
    ((get_wallet_balance_multi_chain address ethResp hype_price nativeResp tokenResp).success = true ↔
      ((get_wallet_balance address ethResp).success = true ∨
       (get_hl_wallet_balance address hype_price nativeResp tokenResp).success = true)) ∧
    ((get_wallet_balance_multi_chain address ethResp hype_price nativeResp tokenResp).success = false ↔
      ((get_wallet_balance address ethResp).success = false ∧
       (get_hl_wallet_balance address hype_price nativeResp tokenResp).success = false)) := by
  cases he : (get_wallet_balance address ethResp).success <;>
    cases hh : (get_hl_wallet_balance address hype_price nativeResp tokenResp).success <;>
      simp [get_wallet_balance_multi_chain, he, hh]

/-- C7: a token balance whose symbol, lower-cased, is in the fixed
legitimate-token allowlist is never classified as spam, whatever its
amount or USD value: the allowlist test is the first rule of
`is_spam_token` and short-circuits all later rules. -/
theorem legitimate_symbol_never_spam (b : BalanceEntry)
    (h : pyLower (b.symbol.getD "") ∈ legitimate_tokens) :
    is_spam_token b = false := by
  simp only [is_spam_token]
  rw [if_pos h]

/-- Witness for C7: a record with a huge amount and a USD value above every
spam threshold, but the allowlisted symbol PEPE, is not spam. -/
theorem legitimate_symbol_never_spam_witness :
    is_spam_token ⟨some "PEPE", some "Pepe Coin", some 999999999999999999, some (some 999999)⟩
      = false :=
  legitimate_symbol_never_spam
    ⟨some "PEPE", some "Pepe Coin", some 999999999999999999, some (some 999999)⟩
    (by decide)

/-- C8: the Ethereum balance fetcher maps any transport exception and any
non-200 response to success = false with balance_usd = 0; the embedding
returns a plain `EthResult` (not an `Except`), modelling that the source
catches every exception locally and never propagates one to the caller. -/
theorem eth_fetch_failure_yields_zero_unsuccessful
    (address : String) (response : Except PyExc (ℕ × List BalanceEntry))
    (h : match response with
         | .ok (status_code, _) => status_code ≠ 200
         | .error _ => True) :
    (get_wallet_balance address response).success = false ∧
    (get_wallet_balance address response).balance_usd = 0 := by
  cases response with
  | error e => exact ⟨rfl, rfl⟩
  | ok p =>
    obtain ⟨s, bs⟩ := p
    simp only [get_wallet_balance]
    rw [if_neg h]
    exact ⟨rfl, rfl⟩

/-- Witness for C8: a 404 response yields the zero-value failure result. -/
theorem eth_fetch_failure_yields_zero_unsuccessful_witness :
    (get_wallet_balance "0xdead" (.ok (404, []))).success = false ∧
    (get_wallet_balance "0xdead" (.ok (404, []))).balance_usd = 0 :=
  eth_fetch_failure_yields_zero_unsuccessful "0xdead" (.ok (404, [])) (by decide)

/-- C10: `is_spam_token` treats a record with missing `symbol`, `name` or
`amount` keys, or a missing or `None` `value_usd`, exactly as the record
with the defaults substituted (`''` for the strings, 0 for the numbers);
being a total Lean function into `Bool`, the embedded classifier returns a
verdict on every such record without raising. -/
theorem is_spam_token_total_with_defaults (b : BalanceEntry) :
    is_spam_token b = is_spam_token (entry_with_defaults b) :=
  rfl

unseal Rat.add Rat.mul Rat.inv Rat.sub in
/-- C1 (code bug): WHYPE, 0x5555...5555, is in the verified allowlist of
`config.py` and is HYPE-pegged, and the wallet holds exactly 1.0 of it
(raw hex 0xde0b6b3a7640000 = 10^18 at 18 decimals) with the native price
pre-fetched as 2; the fetch should price it at 1 × 2 = 2 USD.  Instead the
pricing test at line 208 reads the nonexistent attribute
`config.HL_HYPE_TOKENS`, raising `AttributeError`, so the whole fetch
aborts and returns the zero-value failure result. -/
theorem hl_verified_token_balance_aborts_fetch :
    ("0x5555555555555555555555555555555555555555", "WHYPE", "hype") ∈ config_HL_VERIFIED_TOKENS ∧
    config_HL_HYPE_TOKENS = .error .attributeError ∧
    get_hl_wallet_balance "0xabc" 2 (.ok "0x0")
        (.ok [⟨"0x5555555555555555555555555555555555555555", "0xde0b6b3a7640000"⟩])
      = ⟨"0xabc", 0, 0, 0, false⟩ := by
  refine ⟨by decide, rfl, by decide⟩

unseal Rat.add Rat.mul Rat.inv Rat.sub in
/-- C2 (counterexample): with a stale cached price of 5 (age 1000 ≥ 300,
so the cache is missed) and a fetch that succeeds with price 0,
`get_hype_price` returns the fetched 0, not the previously cached 5 the
claim prescribes for a zero-price outcome. -/
theorem get_hype_price_zero_fetch_ignores_cache :
    ¬ ((1000 : ℚ) - (0 : ℚ) < 300) ∧
    cache_price_or_zero ⟨some 5, 0⟩ = 5 ∧
    (get_hype_price ⟨some 5, 0⟩ 1000 (.ok 0)).1 = 0 ∧
    ¬ (get_hype_price ⟨some 5, 0⟩ 1000 (.ok 0)).1 = 5 := by
  decide

/-- C2 (amended): on a cache miss, a fetch exception returns the previously
cached price (0 if never populated) and leaves the cache unchanged; a
fetched price > 0 is returned and cached; a fetched price ≤ 0 (including
the zero-price case) is returned as-is without consulting or updating the
cache.  The function is total (never raises). -/
theorem get_hype_price_miss_behaviour
    (cache : PriceCache) (now : ℚ) (fetch : Except PyExc ℚ)
    (hmiss : ¬ (cache_price_or_zero cache ≠ 0 ∧ now - cache.timestamp < 300)) :
    (∀ e, fetch = .error e →
       get_hype_price cache now fetch = (cache_price_or_zero cache, cache)) ∧
    (∀ p, fetch = .ok p → 0 < p →
       get_hype_price cache now fetch = (p, ⟨some p, now⟩)) ∧
    (∀ p, fetch = .ok p → ¬ 0 < p →
       get_hype_price cache now fetch = (p, cache)) := by
  refine ⟨?_, ?_, ?_⟩
  · intro e hf
    subst hf
    simp only [get_hype_price]
    rw [if_neg hmiss]
  · intro p hf hp
    subst hf
    simp only [get_hype_price]
    rw [if_neg hmiss, if_pos hp]
  · intro p hf hp
    subst hf
    simp only [get_hype_price]
    rw [if_neg hmiss, if_neg hp]

unseal Rat.add Rat.mul Rat.inv Rat.sub in
/-- Witness for the amended C2: a miss (empty cache) with a transport
exception returns the fallback 0 and leaves the cache empty. -/
theorem get_hype_price_miss_behaviour_witness :
    get_hype_price ⟨none, 0⟩ 500 (.error .transport)
      = (cache_price_or_zero ⟨none, 0⟩, ⟨none, 0⟩) :=
  (get_hype_price_miss_behaviour ⟨none, 0⟩ 500 (.error .transport)
    (by decide)).1 .transport rfl

/-- Sum over a result list all of whose failure entries carry balance 0
equals the sum over its successful entries only. -/
theorem sum_balance_filter_success (ms : List MergedResult)
    (hz : ∀ r ∈ ms, r.success = false → r.balance_usd = 0) :
    (ms.map (·.balance_usd)).sum
      = ((ms.filter (·.success)).map (·.balance_usd)).sum := by
  induction ms with
  | nil => rfl
  | cons r rs ih =>
    have ihz := ih (fun x hx => hz x (List.mem_cons_of_mem r hx))
    cases hr : r.success with
    | true => simp [List.filter_cons, hr, ihz]
    | false =>
      have h0 := hz r (List.mem_cons_self r rs) hr
      simp [List.filter_cons, hr, ihz, h0]

unseal Rat.add Rat.mul Rat.inv Rat.sub in
/-- C3 (counterexample): a scan producing one successful wallet worth 10
and one failed wallet.  The batch scanner `fetch_all_wallet_balances`
reports avg_value_usd = 10 / 2 = 5, dividing by the total entry count, not
10 / 1 = 10 as the claim's division by the successful count prescribes. -/
theorem fetch_all_avg_divides_by_total_count :
    (fetch_all_stats [⟨"0xa", 10, 1, true⟩, ⟨"0xb", 0, 0, false⟩]).1 = 10 ∧
    (([⟨"0xa", 10, 1, true⟩, ⟨"0xb", 0, 0, false⟩] : List EthResult).filter
        (·.success)).length = 1 ∧
    (fetch_all_stats [⟨"0xa", 10, 1, true⟩, ⟨"0xb", 0, 0, false⟩]).2 = 5 ∧
    ¬ (fetch_all_stats [⟨"0xa", 10, 1, true⟩, ⟨"0xb", 0, 0, false⟩]).2
        = (fetch_all_stats [⟨"0xa", 10, 1, true⟩, ⟨"0xb", 0, 0, false⟩]).1
          / ((([⟨"0xa", 10, 1, true⟩, ⟨"0xb", 0, 0, false⟩] : List EthResult).filter
              (·.success)).length : ℚ) := by
  decide

/-- C3 (amended): in both scanners totalValueUsd is the sum of balance_usd
over all entries, and failed entries (which the merger gives balance 0)
contribute nothing; but the two scanners divide differently: the dashboard
scan (`refresh_data`) divides avgValueUsd by the count of successful
entries, while the batch scan (`fetch_all_wallet_balances`) divides by the
total entry count. -/
theorem scan_totals_spec
    (ms : List MergedResult) (es : List EthResult)
    (hs : (ms.filter (·.success)).length ≠ 0)
    (he : es ≠ []) :
    (refresh_data_summary ms).total_value_usd = (ms.map (·.balance_usd)).sum ∧
    (refresh_data_summary ms).avg_value_usd
      = (refresh_data_summary ms).total_value_usd
        / (((ms.filter (·.success)).length : ℕ) : ℚ) ∧
    ((∀ r ∈ ms, r.success = false → r.balance_usd = 0) →
      (refresh_data_summary ms).total_value_usd
        = ((ms.filter (·.success)).map (·.balance_usd)).sum) ∧
    (∀ address ethResp hype_price nativeResp tokenResp,
      (get_wallet_balance_multi_chain address ethResp hype_price nativeResp tokenResp).success
          = false →
      (get_wallet_balance_multi_chain address ethResp hype_price nativeResp tokenResp).balance_usd
          = 0) ∧
    (fetch_all_stats es).1 = (es.map (·.balance_usd)).sum ∧
    (fetch_all_stats es).2 = (es.map (·.balance_usd)).sum / ((es.length : ℕ) : ℚ) := by
  refine ⟨rfl, ?_, ?_, ?_, rfl, ?_⟩
  · simp only [refresh_data_summary]
    rw [if_pos hs]
  · exact sum_balance_filter_success ms
  · intro address ethResp hype_price nativeResp tokenResp hfail
    have hb : (get_wallet_balance address ethResp).success = false ∧
        (get_hl_wallet_balance address hype_price nativeResp tokenResp).success = false := by
      have := hfail
      simp only [get_wallet_balance_multi_chain, Bool.or_eq_false_iff] at this
      exact this
    simp [get_wallet_balance_multi_chain, hb.1, hb.2]
  · simp only [fetch_all_stats]
    rw [if_pos he]

unseal Rat.add Rat.mul Rat.inv Rat.sub in
/-- Witness for the amended C3: concrete one-wallet scans; the dashboard
scan divides 4 by the one successful entry. -/
theorem scan_totals_spec_witness :
    (refresh_data_summary [⟨"0xa", 4, 4, 0, 0, 1, true⟩]).avg_value_usd
      = (refresh_data_summary [⟨"0xa", 4, 4, 0, 0, 1, true⟩]).total_value_usd
        / ((([⟨"0xa", 4, 4, 0, 0, 1, true⟩] : List MergedResult).filter
            (·.success)).length : ℚ) :=
  (scan_totals_spec [⟨"0xa", 4, 4, 0, 0, 1, true⟩] [⟨"0xe", 1, 0, true⟩]
    (by decide) (by decide)).2.1

/-- A token-loop step that returns normally leaves the accumulator
unchanged: every positive balance reaches the broken
`config.HL_HYPE_TOKENS` lookup and raises instead. -/
theorem process_hl_token_ok_eq {hype_price : ℚ} {st st' : ℚ × ℕ} {tb : TokenBalanceRPC}
    (h : process_hl_token hype_price st tb = .ok st') : st' = st := by
  simp only [process_hl_token, config_HL_HYPE_TOKENS] at h
  split at h
  · exact (Except.ok.inj h).symm
  · split at h
    · exact absurd h (by simp)
    · split at h
      · exact (Except.ok.inj h).symm
      · exact absurd h (by simp [Bind.bind, Except.bind])

/-- A token loop that completes without raising leaves the accumulator at
its initial value. -/
theorem foldlM_process_hl_token_ok {hype_price : ℚ} :
    ∀ (tbs : List TokenBalanceRPC) (st st' : ℚ × ℕ),
      tbs.foldlM (process_hl_token hype_price) st = .ok st' → st' = st
  | [], st, st', h => (Except.ok.inj h).symm
  | tb :: tbs, st, st', h => by
    rw [List.foldlM_cons] at h
    cases hh : process_hl_token hype_price st tb with
    | error e => rw [hh] at h; exact absurd h (by simp [Bind.bind, Except.bind])
    | ok st1 =>
      rw [hh] at h
      simp only [Bind.bind, Except.bind] at h
      have h2 := foldlM_process_hl_token_ok tbs st1 st' h
      rw [h2, process_hl_token_ok_eq hh]

/-- Shape of a successful Hyperliquid fetch body: the native balance is a
hex-decoded natural over 10^18, and (the token loop contributing nothing,
by the previous lemmas) the USD total is the native balance priced at
`hype_price` when positive, else 0. -/
theorem hl_fetch_body_ok_shape {hype_price : ℚ}
    {nativeResp : Except PyExc String} {tokenResp : Except PyExc (List TokenBalanceRPC)}
    {out : ℚ × ℚ × ℕ}
    (h : hl_fetch_body hype_price nativeResp tokenResp = .ok out) :
    ∃ n : ℕ, out.2.1 = ((n : ℚ) / 10 ^ 18) ∧
      out.1 = if 0 < ((n : ℚ) / 10 ^ 18) then ((n : ℚ) / 10 ^ 18) * hype_price else 0 := by
  unfold hl_fetch_body at h
  cases nativeResp with
  | error e => exact absurd h (by simp [Bind.bind, Except.bind])
  | ok s =>
    simp only [Bind.bind, Except.bind] at h
    cases hx : int_hex s with
    | none => rw [hx] at h; exact absurd h (by simp)
    | some n =>
      rw [hx] at h
      cases tokenResp with
      | error e => exact absurd h (by simp [Bind.bind, Except.bind])
      | ok tbs =>
        simp only [Bind.bind, Except.bind] at h
        refine ⟨n, ?_⟩
        cases hf : tbs.foldlM (process_hl_token hype_price)
            (if ((n : ℚ) / 10 ^ 18) > 0 then (((n : ℚ) / 10 ^ 18) * hype_price, 1) else (0, 0)) with
        | error e => rw [hf] at h; exact absurd h (by simp)
        | ok stf =>
          rw [hf] at h
          simp only [pure, Except.pure, Except.ok.injEq] at h
          have hst := foldlM_process_hl_token_ok tbs _ _ hf
          subst hst
          cases h
          constructor
          · rfl
          · split <;> simp

/-- With a nonnegative native price, the Hyperliquid fetcher's USD total is
nonnegative. -/
theorem hl_balance_usd_nonneg (address : String) {hype_price : ℚ} (hhp : 0 ≤ hype_price)
    (nativeResp : Except PyExc String) (tokenResp : Except PyExc (List TokenBalanceRPC)) :
    0 ≤ (get_hl_wallet_balance address hype_price nativeResp tokenResp).balance_usd := by
  unfold get_hl_wallet_balance
  split
  · exact le_refl 0
  · cases hb : hl_fetch_body hype_price nativeResp tokenResp with
    | error e => simp
    | ok out =>
      obtain ⟨n, _, hval⟩ := hl_fetch_body_ok_shape hb
      simp only
      rw [hval]
      split
      · positivity
      · exact le_refl 0

/-- With nonnegative per-token USD values in the response, the Ethereum
fetcher's total is nonnegative (a sum over a sublist of those values). -/
theorem eth_balance_usd_nonneg (address : String)
    {response : Except PyExc (ℕ × List BalanceEntry)}
    (hv : match response with
          | .ok (_, bs) => ∀ b ∈ bs, 0 ≤ entry_value_usd b
          | .error _ => True) :
    0 ≤ (get_wallet_balance address response).balance_usd := by
  cases response with
  | error e => exact le_refl 0
  | ok p =>
    obtain ⟨s, bs⟩ := p
    simp only [get_wallet_balance]
    split
    · refine List.sum_nonneg ?_
      intro x hx
      obtain ⟨b, hb, rfl⟩ := List.mem_map.1 hx
      exact hv b (List.mem_of_mem_filter hb)
    · exact le_refl 0

/-- C9: given the domain facts that the external price and the per-token
USD values reported by the balances API are nonnegative, every merged
result has nonnegative per-chain components and total, and a failed chain
contributes exactly 0 to its component. -/
theorem merged_balance_nonneg
    (address : String) (ethResp : Except PyExc (ℕ × List BalanceEntry))
    (hype_price : ℚ) (nativeResp : Except PyExc String)
    (tokenResp : Except PyExc (List TokenBalanceRPC))
    (hhp : 0 ≤ hype_price)
    (hval : match ethResp with
            | .ok (_, bs) => ∀ b ∈ bs, 0 ≤ entry_value_usd b
            | .error _ => True) :
    0 ≤ (get_wallet_balance_multi_chain address ethResp hype_price nativeResp tokenResp).eth_balance_usd ∧
    0 ≤ (get_wallet_balance_multi_chain address ethResp hype_price nativeResp tokenResp).hl_balance_usd ∧
    0 ≤ (get_wallet_balance_multi_chain address ethResp hype_price nativeResp tokenResp).balance_usd ∧
    ((get_wallet_balance address ethResp).success = false →
      (get_wallet_balance_multi_chain address ethResp hype_price nativeResp tokenResp).eth_balance_usd = 0) ∧
    ((get_hl_wallet_balance address hype_price nativeResp tokenResp).success = false →
      (get_wallet_balance_multi_chain address ethResp hype_price nativeResp tokenResp).hl_balance_usd = 0) := by
  have he : 0 ≤ (get_wallet_balance_multi_chain address ethResp hype_price nativeResp tokenResp).eth_balance_usd := by
    simp only [get_wallet_balance_multi_chain]
    split
    · exact eth_balance_usd_nonneg address hval
    · exact le_refl 0
  have hh : 0 ≤ (get_wallet_balance_multi_chain address ethResp hype_price nativeResp tokenResp).hl_balance_usd := by
    simp only [get_wallet_balance_multi_chain]
    split
    · exact hl_balance_usd_nonneg address hhp nativeResp tokenResp
    · exact le_refl 0
  refine ⟨he, hh, add_nonneg he hh, ?_, ?_⟩
  · intro hfail
    simp [get_wallet_balance_multi_chain, hfail]
  · intro hfail
    simp [get_wallet_balance_multi_chain, hfail]

unseal Rat.add Rat.mul Rat.inv Rat.sub in
/-- Witness for C9: a concrete wallet holding one allowlisted symbol worth
5 USD on Ethereum and 1 wei of native HYPE at price 3 has a nonnegative
merged total. -/
theorem merged_balance_nonneg_witness :
    0 ≤ (get_wallet_balance_multi_chain "0xw"
      (.ok (200, [⟨some "eth", some "Ether", some 1, some (some 5)⟩]))
      3 (.ok "0x1") (.ok [])).balance_usd :=
  (merged_balance_nonneg "0xw"
    (.ok (200, [⟨some "eth", some "Ether", some 1, some (some 5)⟩]))
    3 (.ok "0x1") (.ok []) (by decide) (by decide)).2.2.1

/-- The rank column of the built rows is the consecutive range starting at
the initial counter (models `range(1, len(df) + 1)`). -/
theorem attach_ranks_map_rank (total : ℕ) :
    ∀ (i : ℕ) (l : List RawCollection),
      (attach_ranks total i l).map (·.rank) = List.range' i l.length
  | _, [] => rfl
  | i, r :: rest => by
    simp [attach_ranks, List.range', attach_ranks_map_rank total (i + 1) rest]

/-- Building the derived columns leaves the wallet-count column unchanged. -/
theorem attach_ranks_map_uw (total : ℕ) :
    ∀ (i : ℕ) (l : List RawCollection),
      (attach_ranks total i l).map (·.unique_wallets) = l.map (·.unique_wallets)
  | _, [] => rfl
  | i, r :: rest => by
    simp [attach_ranks, attach_ranks_map_uw total (i + 1) rest]

/-- Building the derived columns preserves, for each wallet count `k`, the
sequence of entity names holding that count. -/
theorem attach_ranks_filter_entity (total k : ℕ) :
    ∀ (i : ℕ) (l : List RawCollection),
      ((attach_ranks total i l).filter (fun row => row.unique_wallets == k)).map (·.entity)
        = (l.filter (fun r => r.unique_wallets == k)).map (·.entity)
  | _, [] => rfl
  | i, r :: rest => by
    simp only [attach_ranks, List.filter_cons]
    by_cases hk : (r.unique_wallets == k) = true
    · simp [hk, attach_ranks_filter_entity total k (i + 1) rest]
    · simp [hk, attach_ranks_filter_entity total k (i + 1) rest]

/-- Every built row carries the percentage computed by the guarded
percentage formula from its own wallet count. -/
theorem attach_ranks_mem_percentage (total : ℕ) :
    ∀ (i : ℕ) (l : List RawCollection), ∀ row ∈ attach_ranks total i l,
      row.percentage = percentage_of total row.unique_wallets
  | _, [], _, hrow => absurd hrow (List.not_mem_nil _)
  | i, r :: rest, row, hrow => by
    rcases List.mem_cons.1 hrow with h | h
    · subst h; rfl
    · exact attach_ranks_mem_percentage total (i + 1) rest row h

/-- A frame sorted weakly descending in `unique_wallets` maps to a weakly
decreasing wallet-count column. -/
theorem sorted_map_uw {sorted : List RawCollection} (h : List.Sorted uwDesc sorted) :
    List.Sorted (· ≥ ·) (sorted.map (·.unique_wallets)) := by
  rw [List.Sorted, List.pairwise_map]
  exact h.imp (fun hab => hab)

unseal Rat.add Rat.mul Rat.inv Rat.sub in
/-- C6 (counterexample): two rows tied at 5 wallets.  The sorted frame
[b, a] is admissible under the documented contract of the
`sort_values(..., ascending=False)` call with the default quicksort kind
(it is a permutation with weakly decreasing keys; pandas documents only
mergesort/stable as stable, so tie order carries no guarantee), yet the
resulting rows with 5 wallets read ["b", "a"], not the original relative
order ["a", "b"] the claim's stability conjunct prescribes. -/
theorem calculate_metrics_tie_order_not_guaranteed :
    IsSortValuesDesc [⟨"a", 5⟩, ⟨"b", 5⟩] [⟨"b", 5⟩, ⟨"a", 5⟩] ∧
    ((calculate_metrics [⟨"a", 5⟩, ⟨"b", 5⟩] [⟨"b", 5⟩, ⟨"a", 5⟩]).filter
        (fun row => row.unique_wallets == 5)).map (·.entity) = ["b", "a"] ∧
    ¬ ((calculate_metrics [⟨"a", 5⟩, ⟨"b", 5⟩] [⟨"b", 5⟩, ⟨"a", 5⟩]).filter
          (fun row => row.unique_wallets == 5)).map (·.entity)
        = (([⟨"a", 5⟩, ⟨"b", 5⟩] : List RawCollection).filter
            (fun r => r.unique_wallets == 5)).map (·.entity) := by
  decide

/-- C6 (amended): `calculate_metrics` on the empty frame returns the empty
frame without raising; on any frame, for every sort outcome admissible
under the documented contract of the `sort_values` call (permutation,
weakly descending; tie order implementation-defined), the output is weakly
descending in `unique_wallets`, per wallet count the output rows are a
permutation of the input rows holding that count (nothing stronger about
tie order is promised), ranks are the dense sequence 1..N in output order,
and every row's percentage is uniqueWallets / total × 100 rounded to 2
decimals with total taken over the whole input, or 0.0 for every row when
that total is 0 (the guarded formula `percentage_of`). -/
theorem calculate_metrics_spec :
    (∀ sorted : List RawCollection, calculate_metrics [] sorted = []) ∧
    ∀ (df sorted : List RawCollection), IsSortValuesDesc df sorted →
      List.Sorted (· ≥ ·) ((calculate_metrics df sorted).map (·.unique_wallets)) ∧
      (∀ k : ℕ, List.Perm
          (((calculate_metrics df sorted).filter
              (fun row => row.unique_wallets == k)).map (·.entity))
          ((df.filter (fun r => r.unique_wallets == k)).map (·.entity))) ∧
      ((calculate_metrics df sorted).map (·.rank) = List.range' 1 df.length) ∧
      (∀ row ∈ calculate_metrics df sorted,
        row.percentage = percentage_of ((df.map (·.unique_wallets)).sum) row.unique_wallets) := by
  refine ⟨fun sorted => rfl, ?_⟩
  intro df sorted hcontract
  obtain ⟨hperm, hsorted⟩ := hcontract
  by_cases hdf : df = []
  · subst hdf
    have hnil : sorted = [] := hperm.eq_nil
    subst hnil
    exact ⟨List.sorted_nil, fun k => List.Perm.refl _, rfl,
      fun row hrow => absurd hrow (List.not_mem_nil _)⟩
  · have hmetrics : calculate_metrics df sorted
        = attach_ranks ((sorted.map (·.unique_wallets)).sum) 1 sorted := by
      simp only [calculate_metrics, hdf, if_false]
    have hsum : (sorted.map (·.unique_wallets)).sum = (df.map (·.unique_wallets)).sum :=
      (hperm.map (·.unique_wallets)).sum_eq
    refine ⟨?_, ?_, ?_, ?_⟩
    · rw [hmetrics, attach_ranks_map_uw]
      exact sorted_map_uw hsorted
    · intro k
      rw [hmetrics, attach_ranks_filter_entity]
      exact (hperm.filter _).map (·.entity)
    · rw [hmetrics, attach_ranks_map_rank]
      congr 1
      exact hperm.length_eq
    · intro row hrow
      rw [hmetrics] at hrow
      rw [attach_ranks_mem_percentage _ _ _ row hrow, hsum]

/-- Witness for the amended C6: on the spec's example frame [50, 30, 20]
(already descending, so the identity permutation is the admissible sort
outcome) the ranks are [1, 2, 3] and the rows with 30 wallets are a
permutation of the one input row beta. -/
theorem calculate_metrics_spec_witness :
    (calculate_metrics [⟨"alpha", 50⟩, ⟨"beta", 30⟩, ⟨"gamma", 20⟩]
        [⟨"alpha", 50⟩, ⟨"beta", 30⟩, ⟨"gamma", 20⟩]).map (·.rank) = [1, 2, 3] ∧
    List.Perm
      (((calculate_metrics [⟨"alpha", 50⟩, ⟨"beta", 30⟩, ⟨"gamma", 20⟩]
          [⟨"alpha", 50⟩, ⟨"beta", 30⟩, ⟨"gamma", 20⟩]).filter
        (fun row => row.unique_wallets == 30)).map (·.entity)) ["beta"] := by
  have h := calculate_metrics_spec.2 [⟨"alpha", 50⟩, ⟨"beta", 30⟩, ⟨"gamma", 20⟩]
      [⟨"alpha", 50⟩, ⟨"beta", 30⟩, ⟨"gamma", 20⟩] (by decide)
  refine ⟨?_, ?_⟩
  · rw [h.2.2.1]
    decide
  · have hp := h.2.1 30
    have hr : (([⟨"alpha", 50⟩, ⟨"beta", 30⟩, ⟨"gamma", 20⟩] : List RawCollection).filter
        (fun r => r.unique_wallets == 30)).map (·.entity) = ["beta"] := by decide
    rw [hr] at hp
    exact hp
